import Mathlib

set_option maxRecDepth 8192

/-!
Shallow embedding of the `devcontainer-init` artifact-generation layer:
the domain policy resolver and firewall script compiler (`src/generators/firewall.ts`),
the container recipe compiler (`src/generators/dockerfile.ts`), and the editor
manifest compiler (`generateDevcontainerJson`).  Machine strings are Lean `String`s;
JavaScript objects used as string-keyed records are association lists with
JavaScript assignment semantics (replace the existing entry in place, else append).
-/

/-- The `Runtime` union type: `"node-pnpm" | "node-bun" | "python"`. -/
inductive Runtime where
  | nodePnpm
  | nodeBun
  | python
deriving DecidableEq

/-- The string carried by each `Runtime` value in the TypeScript source. -/
def Runtime.toStr : Runtime → String
  | Runtime.nodePnpm => "node-pnpm"
  | Runtime.nodeBun => "node-bun"
  | Runtime.python => "python"

/-- The `ClaudeMode` union type: `"none" | "local" | "fresh"`. -/
inductive ClaudeMode where
  | none
  | local
  | fresh
deriving DecidableEq

/-- The string carried by each `ClaudeMode` value in the TypeScript source. -/
def ClaudeMode.toStr : ClaudeMode → String
  | ClaudeMode.none => "none"
  | ClaudeMode.local => "local"
  | ClaudeMode.fresh => "fresh"

/-- The `DevcontainerConfig` interface from `src/types.ts`. -/
structure DevcontainerConfig where
  runtime : Runtime
  runtimeVersion : String
  timezone : String
  ports : List Nat
  enableFirewall : Bool
  claudeMode : ClaudeMode
  extensions : List String

/-- `config.runtime.startsWith("node")` as it appears in the source, expressed
on the underlying character sequence. -/
def runtimeStartsWithNode (r : Runtime) : Bool :=
  "node".data.isPrefixOf (Runtime.toStr r).data

/-- `config.runtime === "python"` as it appears in the source. -/
def runtimeIsPython (r : Runtime) : Bool :=
  Runtime.toStr r == "python"

/-- `getFirewallDomains` from `src/generators/firewall.ts`: start from the two
unconditional GitHub domains, push the npm registry for the node family, the two
PyPI domains for python, and the four assistant-vendor domains when
`claudeMode !== "none"`. -/
def getFirewallDomains (config : DevcontainerConfig) : List String :=
  let domains := ["api.github.com", "github.com"]
  let domains :=
    if runtimeStartsWithNode config.runtime then domains ++ ["registry.npmjs.org"] else domains
  let domains :=
    if runtimeIsPython config.runtime then
      domains ++ ["pypi.org", "files.pythonhosted.org"]
    else domains
  if ClaudeMode.toStr config.claudeMode != "none" then
    domains ++ ["api.anthropic.com", "sentry.io", "statsig.anthropic.com", "statsig.com"]
  else domains

/-- `domains.map((d) => `"${d}"`).join(" ")` from `generateFirewallScript`. -/
def domainList (config : DevcontainerConfig) : String :=
  String.intercalate " " ((getFirewallDomains config).map (fun d => "\"" ++ d ++ "\""))

/-- The lines of the `generateFirewallScript` template literal that precede the
`for domain in ${domainList}; do` line, verbatim. -/
def fwLinesPre : List String :=
  [ "#!/bin/bash"
  , "set -euo pipefail"
  , "IFS=$\x27\\n\\t\x27"
  , ""
  , "# Extract Docker DNS info BEFORE any flushing"
  , "DOCKER_DNS_RULES=$(iptables-save -t nat | grep \"127\\.0\\.0\\.11\" || true)"
  , ""
  , "# Flush existing rules"
  , "iptables -F"
  , "iptables -X"
  , "iptables -t nat -F"
  , "iptables -t nat -X"
  , "iptables -t mangle -F"
  , "iptables -t mangle -X"
  , "ipset destroy allowed-domains 2>/dev/null || true"
  , ""
  , "# Restore Docker DNS rules"
  , "if [ -n \"$DOCKER_DNS_RULES\" ]; then"
  , "    echo \"Restoring Docker DNS rules...\""
  , "    iptables -t nat -N DOCKER_OUTPUT 2>/dev/null || true"
  , "    iptables -t nat -N DOCKER_POSTROUTING 2>/dev/null || true"
  , "    echo \"$DOCKER_DNS_RULES\" | xargs -L 1 iptables -t nat"
  , "fi"
  , ""
  , "# Allow DNS and localhost"
  , "iptables -A OUTPUT -p udp --dport 53 -j ACCEPT"
  , "iptables -A INPUT -p udp --sport 53 -j ACCEPT"
  , "iptables -A OUTPUT -p tcp --dport 22 -j ACCEPT"
  , "iptables -A INPUT -p tcp --sport 22 -m state --state ESTABLISHED -j ACCEPT"
  , "iptables -A INPUT -i lo -j ACCEPT"
  , "iptables -A OUTPUT -o lo -j ACCEPT"
  , ""
  , "# Create ipset"
  , "ipset create allowed-domains hash:net"
  , ""
  , "# Fetch GitHub IP ranges"
  , "echo \"Fetching GitHub IP ranges...\""
  , "gh_ranges=$(curl -s https://api.github.com/meta)"
  , "if [ -z \"$gh_ranges\" ]; then"
  , "    echo \"ERROR: Failed to fetch GitHub IP ranges\""
  , "    exit 1"
  , "fi"
  , ""
  , "echo \"Processing GitHub IPs...\""
  , "while read -r cidr; do"
  , "    if [[ ! \"$cidr\" =~ ^[0-9]\x7b1,3\x7d\\.[0-9]\x7b1,3\x7d\\.[0-9]\x7b1,3\x7d\\.[0-9]\x7b1,3\x7d/[0-9]\x7b1,2\x7d$ ]]; then"
  , "        continue"
  , "    fi"
  , "    ipset add allowed-domains \"$cidr\" 2>/dev/null || true"
  , "done < <(echo \"$gh_ranges\" | jq -r \x27(.web + .api + .git)[]\x27 | aggregate -q)"
  , ""
  , "# Resolve allowed domains" ]

/-- The lines of the `generateFirewallScript` template literal that follow the
`for domain in ${domainList}; do` line, verbatim (the template ends with a
newline, hence the final empty line). -/
def fwLinesPost : List String :=
  [ "    echo \"Resolving $domain...\""
  , "    ips=$(dig +short A \"$domain\" || true)"
  , "    while read -r ip; do"
  , "        if [[ \"$ip\" =~ ^[0-9]\x7b1,3\x7d\\.[0-9]\x7b1,3\x7d\\.[0-9]\x7b1,3\x7d\\.[0-9]\x7b1,3\x7d$ ]]; then"
  , "            ipset add allowed-domains \"$ip\" 2>/dev/null || true"
  , "        fi"
  , "    done < <(echo \"$ips\")"
  , "done"
  , ""
  , "# Get host network"
  , "HOST_IP=$(ip route | grep default | cut -d\" \" -f3)"
  , "HOST_NETWORK=$(echo \"$HOST_IP\" | sed \"s/\\.[0-9]*$/.0\\/24/\")"
  , "echo \"Host network: $HOST_NETWORK\""
  , ""
  , "iptables -A INPUT -s \"$HOST_NETWORK\" -j ACCEPT"
  , "iptables -A OUTPUT -d \"$HOST_NETWORK\" -j ACCEPT"
  , ""
  , "# Set default policies"
  , "iptables -P INPUT DROP"
  , "iptables -P FORWARD DROP"
  , "iptables -P OUTPUT DROP"
  , ""
  , "# Allow established connections"
  , "iptables -A INPUT -m state --state ESTABLISHED,RELATED -j ACCEPT"
  , "iptables -A OUTPUT -m state --state ESTABLISHED,RELATED -j ACCEPT"
  , ""
  , "# Allow only whitelisted domains"
  , "iptables -A OUTPUT -m set --match-set allowed-domains dst -j ACCEPT"
  , ""
  , "echo \"Firewall configured successfully\""
  , "" ]

/-- The template literal of `generateFirewallScript`, line by line; the single
interpolation `${domainList}` sits inside the `for domain in ...; do` line. -/
def generateFirewallScriptLines (config : DevcontainerConfig) : List String :=
  fwLinesPre ++ ["for domain in " ++ domainList config ++ "; do"] ++ fwLinesPost

/-- `generateFirewallScript` from `src/generators/firewall.ts`: the template
literal, reconstructed from its lines. -/
def generateFirewallScript (config : DevcontainerConfig) : String :=
  String.intercalate "\n" (generateFirewallScriptLines config)

/-- JavaScript object assignment `obj[k] = v` on a string-keyed record:
replace the entry for `k` in place if one exists, otherwise append. -/
def recordSet {α : Type} : List (String × α) → String → α → List (String × α)
  | [], k, v => [(k, v)]
  | e :: rest, k, v => if e.1 == k then (k, v) :: rest else e :: recordSet rest k v

/-- JavaScript object read `obj[k]` on a string-keyed record. -/
def recordGet {α : Type} (m : List (String × α)) (k : String) : Option α :=
  (m.find? (fun e => e.1 == k)).map (fun e => e.2)

/-- One `portsAttributes` entry: `{ label, onAutoForward }`. -/
structure PortAttr where
  label : String
  onAutoForward : String
deriving DecidableEq

/-- The label chosen for the port at position `index`:
`index === 0 ? "Application" : `Port ${port}``. -/
def portLabel (index : Nat) (port : Nat) : String :=
  if index == 0 then "Application" else "Port " ++ toString port

/-- The `config.ports.forEach((port, index) => ...)` loop of
`generateDevcontainerJson`: assign an attribute object under the key
`port.toString()` for each port in order. -/
def portsAttributesGo : List Nat → Nat → List (String × PortAttr) → List (String × PortAttr)
  | [], _, acc => acc
  | port :: rest, index, acc =>
    portsAttributesGo rest (index + 1)
      (recordSet acc (toString port) ⟨portLabel index port, "notify"⟩)

/-- Reference reading of the ports loop used to phrase claims: the attribute a
key ends up with is the one written by the LAST occurrence of that key, because
later `obj[k] = v` assignments overwrite earlier ones.  Scans the ports with
their indices and keeps the result of the rightmost occurrence of key `k`. -/
def lastOccAttr : List Nat → Nat → String → Option PortAttr
  | [], _, _ => Option.none
  | port :: rest, index, k =>
    match lastOccAttr rest (index + 1) k with
    | Option.some a => Option.some a
    | Option.none =>
      if toString port == k then Option.some ⟨portLabel index port, "notify"⟩ else Option.none

/-- The user name computed at the top of `generateDevcontainerJson`:
`config.runtime === "python" ? "vscode" : "node"`. -/
def devcontainerUser (config : DevcontainerConfig) : String :=
  if runtimeIsPython config.runtime then "vscode" else "node"

/-- The fields of the `devcontainer.json` document built by
`generateDevcontainerJson` that carry configuration-dependent data.  The
`customizations.vscode.settings` block (fixed editor settings plus per-runtime
formatter entries) is not modeled; no claim mentions it. -/
structure DevcontainerJson where
  name : String
  buildDockerfile : String
  buildArgTZ : String
  runArgs : List String
  extensions : List String
  remoteUser : String
  mounts : List String
  containerEnv : List (String × String)
  workspaceMount : String
  workspaceFolder : String
  forwardPorts : List Nat
  portsAttributes : List (String × PortAttr)
  postCreateCommand : Option String

/-- `generateDevcontainerJson` from `src/generators/devcontainer-json.ts`:
build the base document, prepend the two capability flags and add the
post-create command when `enableFirewall`, push the two credential bind mounts
and the `CLAUDE_CONFIG_DIR` variable when `claudeMode === "local"`, set
`NODE_OPTIONS` for the node family, then fill `portsAttributes` from the ports
loop. -/
def generateDevcontainerJson (config : DevcontainerConfig) : DevcontainerJson :=
  let user := devcontainerUser config
  let json : DevcontainerJson :=
    { name := "$\x7blocalWorkspaceFolderBasename\x7d"
    , buildDockerfile := "Dockerfile"
    , buildArgTZ := "$\x7blocalEnv:TZ:" ++ config.timezone ++ "\x7d"
    , runArgs := ["--name=$\x7blocalWorkspaceFolderBasename\x7d-devcontainer"]
    , extensions := config.extensions
    , remoteUser := user
    , mounts := ["source=devcontainer-bashhistory-$\x7bdevcontainerId\x7d,target=/commandhistory,type=volume"]
    , containerEnv := []
    , workspaceMount := "source=$\x7blocalWorkspaceFolder\x7d,target=/$\x7blocalWorkspaceFolderBasename\x7d,type=bind,consistency=delegated"
    , workspaceFolder := "/$\x7blocalWorkspaceFolderBasename\x7d"
    , forwardPorts := config.ports
    , portsAttributes := []
    , postCreateCommand := Option.none }
  let json :=
    if config.enableFirewall then
      { json with
        runArgs := ["--cap-add=NET_ADMIN", "--cap-add=NET_RAW"] ++ json.runArgs
        , postCreateCommand := Option.some "sudo /usr/local/bin/init-firewall.sh" }
    else json
  let json :=
    if ClaudeMode.toStr config.claudeMode == "local" then
      { json with
        mounts := json.mounts ++
          [ "source=$\x7blocalEnv:HOME\x7d/.claude,target=/home/" ++ user ++ "/.claude,type=bind"
          , "source=$\x7blocalEnv:HOME\x7d/.claude.json,target=/home/" ++ user ++ "/.claude.json,type=bind" ]
        , containerEnv := recordSet json.containerEnv "CLAUDE_CONFIG_DIR" ("/home/" ++ user ++ "/.claude") }
    else json
  let json :=
    if runtimeStartsWithNode config.runtime then
      { json with containerEnv := recordSet json.containerEnv "NODE_OPTIONS" "--max-old-space-size=4096" }
    else json
  { json with portsAttributes := portsAttributesGo config.ports 0 json.portsAttributes }

/-- The user name computed at the top of `generateDockerfile`:
`isPython ? "vscode" : "node"`. -/
def dockerfileUser (config : DevcontainerConfig) : String :=
  if runtimeIsPython config.runtime then "vscode" else "node"

/-- The `firewallPackages` chunk of `generateDockerfile`. -/
def dfFirewallPackages (config : DevcontainerConfig) : String :=
  if config.enableFirewall then
    " \\\n  iptables \\\n  ipset \\\n  iproute2 \\\n  dnsutils \\\n  aggregate"
  else ""

/-- The `zshSetup` chunk of `generateDockerfile`. -/
def dfZshSetup : String :=
  "# Install zsh with plugins\nARG ZSH_IN_DOCKER_VERSION=1.2.0\nRUN sh -c \"$(wget -O- https://github.com/deluan/zsh-in-docker/releases/download/v$\x7bZSH_IN_DOCKER_VERSION\x7d/zsh-in-docker.sh)\" -- \\\n  -p git \\\n  -p fzf \\\n  -a \"source /usr/share/doc/fzf/examples/key-bindings.zsh\" \\\n  -a \"source /usr/share/doc/fzf/examples/completion.zsh\" \\\n  -a \"export PROMPT_COMMAND=\x27history -a\x27 && export HISTFILE=/commandhistory/.bash_history\" \\\n  -x"

/-- The `claudeAliases` chunk of `generateDockerfile`. -/
def dfClaudeAliases (config : DevcontainerConfig) : String :=
  if ClaudeMode.toStr config.claudeMode != "none" then
    "\n# Add Claude CLI aliases\nRUN echo \"\" >> ~/.zshrc && \\\n    echo \"# Claude CLI aliases\" >> ~/.zshrc && \\\n    echo \x27alias cc=\"claude --dangerously-skip-permissions\"\x27 >> ~/.zshrc && \\\n    echo \x27alias ccc=\"claude --dangerously-skip-permissions -c\"\x27 >> ~/.zshrc\n"
  else ""

/-- The `firewallSetup` chunk of `generateDockerfile`, parameterized by the
resolved user name. -/
def dfFirewallSetup (config : DevcontainerConfig) : String :=
  if config.enableFirewall then
    "\n# Copy and set up firewall script\nCOPY init-firewall.sh /usr/local/bin/\nUSER root\nRUN chmod +x /usr/local/bin/init-firewall.sh && \\\n  echo \"" ++ dockerfileUser config ++ " ALL=(root) NOPASSWD: /usr/local/bin/init-firewall.sh\" > /etc/sudoers.d/" ++ dockerfileUser config ++ "-firewall && \\\n  chmod 0440 /etc/sudoers.d/" ++ dockerfileUser config ++ "-firewall\nUSER " ++ dockerfileUser config ++ "\n"
  else ""

/-- The `packageManager` chunk of the node branch of `generateDockerfile`. -/
def dfPackageManager (config : DevcontainerConfig) : String :=
  if Runtime.toStr config.runtime == "node-pnpm" then
    "# Install pnpm\nRUN npm install -g pnpm\n"
  else
    "# Install bun\nRUN curl -fsSL https://bun.sh/install | bash\nENV PATH=$PATH:/home/node/.bun/bin\n"

/-- The `claudeCli` chunk of the node branch of `generateDockerfile`. -/
def dfClaudeCliNode (config : DevcontainerConfig) : String :=
  if ClaudeMode.toStr config.claudeMode != "none" then
    "# Install Claude CLI\nRUN npm install -g @anthropic-ai/claude-code\n" ++ dfClaudeAliases config
  else ""

/-- The `claudeCli` chunk of the python branch of `generateDockerfile`. -/
def dfClaudeCliPython (config : DevcontainerConfig) : String :=
  if ClaudeMode.toStr config.claudeMode != "none" then
    "# Install Node.js for Claude CLI\nUSER root\nRUN curl -fsSL https://deb.nodesource.com/setup_20.x | bash - && \\\n  apt-get install -y nodejs && \\\n  npm install -g @anthropic-ai/claude-code\nUSER vscode\n" ++ dfClaudeAliases config
  else ""

/-- The fixed text of the node-branch template between `${config.runtimeVersion}`
and `${firewallPackages}`. -/
def dfNodeHead : String :=
  "\n\nARG TZ\nENV TZ=\"$TZ\"\n\n# Install basic development tools\nRUN apt-get update && apt-get install -y --no-install-recommends \\\n  less \\\n  git \\\n  procps \\\n  sudo \\\n  fzf \\\n  zsh \\\n  man-db \\\n  unzip \\\n  gnupg2 \\\n  gh \\\n  jq \\\n  nano \\\n  vim"

/-- The fixed text of the node-branch template between `${firewallPackages}`
and `${zshSetup}`. -/
def dfNodeMid : String :=
  " \\\n  && apt-get clean && rm -rf /var/lib/apt/lists/*\n\n# Ensure default node user has access to /usr/local/share\nRUN mkdir -p /usr/local/share/npm-global && \\\n  chown -R node:node /usr/local/share\n\nARG USERNAME=node\n\n# Persist bash history\nRUN SNIPPET=\"export PROMPT_COMMAND=\x27history -a\x27 && export HISTFILE=/commandhistory/.bash_history\" \\\n  && mkdir /commandhistory \\\n  && touch /commandhistory/.bash_history \\\n  && chown -R $USERNAME /commandhistory\n\nENV DEVCONTAINER=true\n\n# Create workspace and config directories\nRUN mkdir -p /workspace /home/node/.claude && \\\n  chown -R node:node /workspace /home/node/.claude\n\nWORKDIR /workspace\n\nUSER node\n\n# Set up npm global\nENV NPM_CONFIG_PREFIX=/usr/local/share/npm-global\nENV PATH=$PATH:/usr/local/share/npm-global/bin\n\n# Shell config\nENV SHELL=/bin/zsh\nENV EDITOR=nano\nENV VISUAL=nano\n\n"

/-- The fixed text of the python-branch template between
`${config.runtimeVersion}` and `${firewallPackages}`. -/
def dfPythonHead : String :=
  "\n\nARG TZ\nENV TZ=\"$TZ\"\n\n# Install basic development tools\nRUN apt-get update && apt-get install -y --no-install-recommends \\\n  less \\\n  git \\\n  procps \\\n  sudo \\\n  fzf \\\n  zsh \\\n  man-db \\\n  unzip \\\n  gnupg2 \\\n  gh \\\n  jq \\\n  nano \\\n  vim \\\n  curl"

/-- The fixed text of the python-branch template between `${firewallPackages}`
and `${zshSetup}`. -/
def dfPythonMid : String :=
  " \\\n  && apt-get clean && rm -rf /var/lib/apt/lists/*\n\n# Create non-root user\nARG USERNAME=vscode\nRUN useradd -ms /bin/zsh $USERNAME && \\\n  echo \"$USERNAME ALL=(ALL) NOPASSWD:ALL\" >> /etc/sudoers\n\n# Persist bash history\nRUN mkdir /commandhistory && \\\n  touch /commandhistory/.bash_history && \\\n  chown -R $USERNAME /commandhistory\n\nENV DEVCONTAINER=true\n\n# Create workspace and config directories\nRUN mkdir -p /workspace /home/vscode/.claude && \\\n  chown -R vscode:vscode /workspace /home/vscode/.claude\n\nWORKDIR /workspace\n\nUSER vscode\n\n# Shell config\nENV SHELL=/bin/zsh\nENV EDITOR=nano\nENV VISUAL=nano\n\n"

/-- `generateDockerfile` from `src/generators/dockerfile.ts`: the node branch
and the python branch, each one template literal whose interpolations are the
runtime version and the conditional chunks above; any other runtime value
returns the empty string. -/
def generateDockerfile (config : DevcontainerConfig) : String :=
  let isNode := runtimeStartsWithNode config.runtime
  let isPython := runtimeIsPython config.runtime
  if isNode then
    "FROM node:" ++ config.runtimeVersion ++ dfNodeHead ++ dfFirewallPackages config ++
      dfNodeMid ++ dfZshSetup ++ "\n\n" ++ dfPackageManager config ++ "\n" ++
      dfClaudeCliNode config ++ "\n" ++ dfFirewallSetup config
  else if isPython then
    "FROM python:" ++ config.runtimeVersion ++ dfPythonHead ++ dfFirewallPackages config ++
      dfPythonMid ++ dfZshSetup ++ "\n\n# Install Python tools\nRUN pip install --user poetry black pylint pytest\n\n" ++
      dfClaudeCliPython config ++ "\n" ++ dfFirewallSetup config
  else ""

/-- `pat` occurs verbatim inside `hay` (as a contiguous substring). -/
def ContainsStr (hay pat : String) : Prop :=
  pat.data <:+: hay.data

/-- Executable scan for a contiguous occurrence of `pat` in a character list. -/
def containsB (pat : List Char) : List Char → Bool
  | [] => pat.isEmpty
  | c :: tl => pat.isPrefixOf (c :: tl) || containsB pat tl

/-- Executable scan checking that every occurrence of `pat` is immediately
followed by `next`.  Written with `List.rec` directly so that evaluation
reduces iteratively. -/
def checkOcc (pat next : List Char) (l : List Char) : Bool :=
  List.rec true
    (fun c tl ih =>
      (!(pat.isPrefixOf (c :: tl)) || next.isPrefixOf (List.drop pat.length (c :: tl))) && ih)
    l

/-- Executable check for a nonempty proper prefix of `pat` that is a suffix of
`a` (a pattern occurrence straddling the end of `a`). -/
def straddLeft (a pat : List Char) : Bool :=
  (List.range pat.length).any (fun k => k != 0 && (pat.take k).isSuffixOf a)

/-- Executable check for a nonempty proper suffix of `pat` that is a prefix of
`b` (a pattern occurrence straddling the start of `b`). -/
def straddRight (b pat : List Char) : Bool :=
  (List.range pat.length).any (fun k => k != 0 && (pat.drop k).isPrefixOf b)

/-- The decimal digits of `n`, most significant first; reference version of the
fuel-based `Nat.toDigitsCore` used by `Nat.repr`. -/
def reprDigits (n : Nat) : List Char :=
  if _h : n < 10 then [Nat.digitChar n]
  else reprDigits (n / 10) ++ [Nat.digitChar (n % 10)]
decreasing_by exact Nat.div_lt_self (by omega) (by omega)

/-- Numeric value of a decimal digit character. -/
def digitVal (c : Char) : Nat := c.toNat - 48

/-- Numeric value of a decimal digit string, most significant digit first. -/
def digitsVal (l : List Char) : Nat :=
  l.foldl (fun acc c => acc * 10 + digitVal c) 0

/-- A node configuration with firewall and local assistant mode (the first
example scenario of the specification). -/
def cfgNodeExample : DevcontainerConfig :=
  ⟨Runtime.nodePnpm, "20", "Europe/Paris", [3000, 5432], true, ClaudeMode.local, []⟩

/-- A python configuration with firewall enabled. -/
def cfgPythonFirewall : DevcontainerConfig :=
  ⟨Runtime.python, "3.12", "Europe/Paris", [8000], true, ClaudeMode.none, []⟩

/-- A node configuration whose ports list repeats its first port. -/
def cfgDupFirstPort : DevcontainerConfig :=
  ⟨Runtime.nodePnpm, "20", "Europe/Paris", [3000, 3000], false, ClaudeMode.none, []⟩

/-- A node configuration whose ports list repeats its first port after another
port. -/
def cfgDupPorts : DevcontainerConfig :=
  ⟨Runtime.nodePnpm, "20", "Europe/Paris", [3000, 4000, 3000], false, ClaudeMode.none, []⟩

/-- A node configuration with fresh assistant mode. -/
def cfgNodeFresh : DevcontainerConfig :=
  ⟨Runtime.nodePnpm, "20", "Europe/Paris", [3000], true, ClaudeMode.fresh, []⟩

theorem infix_app_right {α : Type} (a : List α) {b p : List α} (h : p <:+: b) :
    p <:+: a ++ b := by
  obtain ⟨s, t, rfl⟩ := h
  exact ⟨a ++ s, t, by simp [List.append_assoc]⟩

theorem infix_app_left {α : Type} {a p : List α} (b : List α) (h : p <:+: a) :
    p <:+: a ++ b := by
  obtain ⟨s, t, rfl⟩ := h
  exact ⟨s, t ++ b, by simp [List.append_assoc]⟩

theorem containsB_iff (pat : List Char) (l : List Char) :
    containsB pat l = true ↔ pat <:+: l := by
  induction l with
  | nil => simp [containsB]
  | cons c tl ih =>
    rw [containsB, Bool.or_eq_true, ih, List.isPrefixOf_iff_prefix, ← List.infix_cons_iff]

theorem containsStr_append_right (a : String) {b pat : String} (h : ContainsStr b pat) :
    ContainsStr (a ++ b) pat := by
  rw [ContainsStr, String.data_append]
  exact infix_app_right a.data h

theorem containsStr_append_left {a pat : String} (b : String) (h : ContainsStr a pat) :
    ContainsStr (a ++ b) pat := by
  rw [ContainsStr, String.data_append]
  exact infix_app_left b.data h

theorem containsStr_of_b {hay pat : String} (h : containsB pat.data hay.data = true) :
    ContainsStr hay pat :=
  (containsB_iff pat.data hay.data).mp h

theorem interGo_append (s : String) (l : List String) :
    ∀ x y : String, String.intercalate.go (x ++ y) s l = x ++ String.intercalate.go y s l := by
  induction l with
  | nil => intro x y; rfl
  | cons a as ih =>
    intro x y
    show String.intercalate.go (x ++ y ++ s ++ a) s as = x ++ String.intercalate.go (y ++ s ++ a) s as
    rw [String.append_assoc, String.append_assoc, ih, ← String.append_assoc y s a]

theorem intercalate_cons2 (s a b : String) (l : List String) :
    String.intercalate s (a :: b :: l) = a ++ s ++ String.intercalate s (b :: l) := by
  show String.intercalate.go (a ++ s ++ b) s l = a ++ s ++ String.intercalate.go b s l
  rw [interGo_append]

theorem mem_intercalate_contains (sep : String) :
    ∀ (l : List String) (x : String), x ∈ l → x.data <:+: (String.intercalate sep l).data
  | [], x, h => absurd h (List.not_mem_nil x)
  | [a], x, h => by
    have hx : x = a := by simpa using h
    subst hx
    exact List.infix_refl x.data
  | a :: b :: rest, x, h => by
    rw [intercalate_cons2, String.data_append, String.data_append]
    rcases List.mem_cons.mp h with rfl | h
    · exact infix_app_left _ (infix_app_left _ (List.infix_refl x.data))
    · exact infix_app_right _ (mem_intercalate_contains sep (b :: rest) x h)

theorem occ_in_append {α : Type} {x p y a b : List α} (h : x ++ p ++ y = a ++ b) :
    (∃ s, a = x ++ p ++ s ∧ y = s ++ b) ∨
    (∃ t, x = a ++ t ∧ t ++ p ++ y = b) ∨
    (∃ p1 p2, p = p1 ++ p2 ∧ p1 ≠ [] ∧ p2 ≠ [] ∧ a = x ++ p1 ∧ b = p2 ++ y) := by
  rw [List.append_assoc] at h
  rcases List.append_eq_append_iff.mp h with ⟨u, hu1, hu2⟩ | ⟨t, ht1, ht2⟩
  · rcases List.append_eq_append_iff.mp hu2 with ⟨w, hw1, hw2⟩ | ⟨w, hw1, hw2⟩
    · exact Or.inl ⟨w, by rw [hu1, hw1, List.append_assoc], hw2⟩
    · by_cases hu : u = []
      · subst hu
        refine Or.inr (Or.inl ⟨[], by simpa using hu1.symm, ?_⟩)
        simp only [List.nil_append] at hw1 ⊢
        rw [hw1, hw2]
      · by_cases hw : w = []
        · subst hw
          refine Or.inl ⟨[], ?_, ?_⟩
          · rw [hu1, hw1]; simp
          · simp only [List.nil_append]
            simpa using hw2.symm
        · exact Or.inr (Or.inr ⟨u, w, hw1, hu, hw, hu1, hw2⟩)
  · refine Or.inr (Or.inl ⟨t, ht1, ?_⟩)
    rw [List.append_assoc]; exact ht2.symm

theorem straddLeft_of (a pat p1 p2 : List Char) (hp : pat = p1 ++ p2) (h1 : p1 ≠ [])
    (h2 : p2 ≠ []) (hs : p1 <:+ a) : straddLeft a pat = true := by
  rw [straddLeft, List.any_eq_true]
  refine ⟨p1.length, ?_, ?_⟩
  · rw [List.mem_range, hp, List.length_append]
    have := List.length_pos.mpr h2
    omega
  · rw [Bool.and_eq_true, bne_iff_ne, List.isSuffixOf_iff_suffix]
    have hk : pat.take p1.length = p1 := by rw [hp, List.take_left]
    refine ⟨?_, by rw [hk]; exact hs⟩
    have := List.length_pos.mpr h1
    omega

theorem straddRight_of (b pat p1 p2 : List Char) (hp : pat = p1 ++ p2) (h1 : p1 ≠ [])
    (h2 : p2 ≠ []) (hs : p2 <+: b) : straddRight b pat = true := by
  rw [straddRight, List.any_eq_true]
  refine ⟨p1.length, ?_, ?_⟩
  · rw [List.mem_range, hp, List.length_append]
    have := List.length_pos.mpr h2
    omega
  · rw [Bool.and_eq_true, bne_iff_ne, List.isPrefixOf_iff_prefix]
    have hk : pat.drop p1.length = p2 := by rw [hp, List.drop_left]
    refine ⟨?_, by rw [hk]; exact hs⟩
    have := List.length_pos.mpr h1
    omega

theorem checkOcc_nil (pat next : List Char) : checkOcc pat next [] = true := rfl

theorem checkOcc_cons (pat next : List Char) (c : Char) (tl : List Char) :
    checkOcc pat next (c :: tl) =
      ((!(pat.isPrefixOf (c :: tl)) || next.isPrefixOf (List.drop pat.length (c :: tl)))
        && checkOcc pat next tl) := rfl

theorem checkOcc_sound (pat next : List Char) (hpat : pat ≠ []) :
    ∀ (x l y : List Char), checkOcc pat next l = true → l = x ++ pat ++ y → next <+: y := by
  intro x
  induction x with
  | nil =>
    intro l y hc hl
    simp only [List.nil_append] at hl
    subst hl
    rcases pat with _ | ⟨pc, ptl⟩
    · exact absurd rfl hpat
    · rw [show (pc :: ptl) ++ y = pc :: (ptl ++ y) from rfl, checkOcc_cons, Bool.and_eq_true] at hc
      have hpfx : (pc :: ptl).isPrefixOf (pc :: (ptl ++ y)) = true := by
        rw [List.isPrefixOf_iff_prefix]
        exact ⟨y, rfl⟩
      have h1 := hc.1
      rw [hpfx, Bool.not_true, Bool.false_or] at h1
      have hdrop : List.drop (pc :: ptl).length (pc :: (ptl ++ y)) = y := by
        rw [show pc :: (ptl ++ y) = (pc :: ptl) ++ y from rfl, List.drop_left]
      rw [hdrop] at h1
      exact List.isPrefixOf_iff_prefix.mp h1
  | cons c x' ih =>
    intro l y hc hl
    subst hl
    rw [show (c :: x') ++ pat ++ y = c :: (x' ++ pat ++ y) from rfl, checkOcc_cons,
      Bool.and_eq_true] at hc
    exact ih (x' ++ pat ++ y) y hc.2 rfl

theorem checkOcc_complete (pat next : List Char) :
    ∀ l : List Char, checkOcc pat next l = false →
      ∃ x y, l = x ++ pat ++ y ∧ ¬ (next <+: y) := by
  intro l
  induction l with
  | nil => intro h; exact absurd h (by simp [checkOcc_nil])
  | cons c tl ih =>
    intro h
    rw [checkOcc_cons, Bool.and_eq_false_iff] at h
    rcases h with h | h
    · rw [Bool.or_eq_false_iff] at h
      obtain ⟨h1, h2⟩ := h
      rw [Bool.not_eq_false'] at h1
      obtain ⟨y, hy⟩ := List.isPrefixOf_iff_prefix.mp h1
      refine ⟨[], y, by simp [hy.symm], ?_⟩
      intro hn
      rw [← hy, List.drop_left] at h2
      rw [← List.isPrefixOf_iff_prefix] at hn
      rw [hn] at h2
      exact Bool.false_ne_true h2.symm
    · obtain ⟨x, y, hxy, hn⟩ := ih h
      exact ⟨c :: x, y, by rw [hxy]; simp, hn⟩

theorem recordGet_recordSet_self {α : Type} (m : List (String × α)) (k : String) (v : α) :
    recordGet (recordSet m k v) k = Option.some v := by
  induction m with
  | nil => simp [recordSet, recordGet, List.find?]
  | cons e rest ih =>
    by_cases h : e.1 = k
    · simp [recordSet, h, recordGet, List.find?]
    · have hb : (e.1 == k) = false := beq_eq_false_iff_ne.mpr h
      simp only [recordSet, hb, Bool.false_eq_true, if_false]
      simp only [recordGet, List.find?, hb]
      exact ih

theorem recordGet_recordSet_other {α : Type} (m : List (String × α)) (k k' : String) (v : α)
    (hk : k' ≠ k) : recordGet (recordSet m k v) k' = recordGet m k' := by
  have hkk : (k == k') = false := beq_eq_false_iff_ne.mpr (Ne.symm hk)
  induction m with
  | nil => simp [recordSet, recordGet, List.find?, hkk]
  | cons e rest ih =>
    by_cases h : e.1 = k
    · have he : (e.1 == k') = false := beq_eq_false_iff_ne.mpr (by rw [h]; exact Ne.symm hk)
      simp only [recordSet, h, beq_self_eq_true, if_true]
      simp only [recordGet, List.find?, hkk, he]
    · have hb : (e.1 == k) = false := beq_eq_false_iff_ne.mpr h
      simp only [recordSet, hb, Bool.false_eq_true, if_false]
      simp only [recordGet, List.find?] at ih ⊢
      cases he : (e.1 == k')
      · simpa [he] using ih
      · simp [he]

theorem paGo_get (ports : List Nat) :
    ∀ (i : Nat) (acc : List (String × PortAttr)) (k : String),
      recordGet (portsAttributesGo ports i acc) k =
        (lastOccAttr ports i k).elim (recordGet acc k) Option.some := by
  induction ports with
  | nil => intro i acc k; simp [portsAttributesGo, lastOccAttr]
  | cons p rest ih =>
    intro i acc k
    rw [portsAttributesGo, ih, lastOccAttr]
    cases hr : lastOccAttr rest (i + 1) k with
    | some a => simp
    | none =>
      cases hk : (toString p == k) with
      | false =>
        simp only [Option.elim]
        exact recordGet_recordSet_other acc (toString p) k _
          (Ne.symm (ne_of_beq_false hk))
      | true =>
        have hpk : toString p = k := eq_of_beq hk
        subst hpk
        simp only [Option.elim]
        exact recordGet_recordSet_self acc (toString p) _

theorem recordSet_keys {α : Type} (m : List (String × α)) (k : String) (v : α) :
    (recordSet m k v).map Prod.fst =
      if k ∈ m.map Prod.fst then m.map Prod.fst else m.map Prod.fst ++ [k] := by
  induction m with
  | nil => simp [recordSet]
  | cons e rest ih =>
    by_cases h : e.1 = k
    · simp [recordSet, h]
    · have hb : (e.1 == k) = false := beq_eq_false_iff_ne.mpr h
      simp only [recordSet, hb, Bool.false_eq_true, if_false, List.map_cons, ih]
      by_cases hm : k ∈ rest.map Prod.fst
      · simp [hm, List.mem_cons, Ne.symm h]
      · simp [hm, List.mem_cons, Ne.symm h]

theorem recordSet_keys_mem {α : Type} (m : List (String × α)) (k k' : String) (v : α) :
    k ∈ (recordSet m k' v).map Prod.fst ↔ k = k' ∨ k ∈ m.map Prod.fst := by
  rw [recordSet_keys]
  by_cases hm : k' ∈ m.map Prod.fst
  · simp only [hm, if_true]
    constructor
    · exact Or.inr
    · rintro (rfl | h)
      · exact hm
      · exact h
  · simp [hm, or_comm]

theorem recordSet_keys_nodup {α : Type} (m : List (String × α)) (k : String) (v : α)
    (h : (m.map Prod.fst).Nodup) : ((recordSet m k v).map Prod.fst).Nodup := by
  rw [recordSet_keys]
  by_cases hm : k ∈ m.map Prod.fst
  · simpa [hm] using h
  · simp only [hm, if_false]
    rw [List.nodup_append]
    exact ⟨h, List.nodup_singleton k, fun a ha hk => hm (List.mem_singleton.mp hk ▸ ha)⟩

theorem paGo_keys_nodup (ports : List Nat) :
    ∀ (i : Nat) (acc : List (String × PortAttr)), (acc.map Prod.fst).Nodup →
      ((portsAttributesGo ports i acc).map Prod.fst).Nodup := by
  induction ports with
  | nil => intro i acc h; simpa [portsAttributesGo] using h
  | cons p rest ih =>
    intro i acc h
    exact ih (i + 1) _ (recordSet_keys_nodup acc (toString p) _ h)

theorem paGo_keys_mem (ports : List Nat) :
    ∀ (i : Nat) (acc : List (String × PortAttr)) (k : String),
      k ∈ (portsAttributesGo ports i acc).map Prod.fst ↔
        k ∈ ports.map toString ∨ k ∈ acc.map Prod.fst := by
  induction ports with
  | nil => intro i acc k; simp [portsAttributesGo]
  | cons p rest ih =>
    intro i acc k
    rw [portsAttributesGo, ih, recordSet_keys_mem, List.map_cons]
    simp only [List.mem_cons]
    tauto

theorem lastOccAttr_none_iff (ports : List Nat) :
    ∀ (i : Nat) (k : String), lastOccAttr ports i k = Option.none ↔ k ∉ ports.map toString := by
  induction ports with
  | nil => intro i k; simp [lastOccAttr]
  | cons p rest ih =>
    intro i k
    rw [lastOccAttr]
    cases hr : lastOccAttr rest (i + 1) k with
    | some a =>
      constructor
      · intro h; exact absurd h (by simp)
      · intro h
        exfalso
        apply h
        rw [List.map_cons]
        apply List.mem_cons_of_mem
        by_contra hnot
        rw [(ih (i + 1) k).mpr hnot] at hr
        exact Option.noConfusion hr
    | none =>
      have hrest : k ∉ rest.map toString := (ih (i + 1) k).mp hr
      cases hk : (toString p == k) with
      | false =>
        simp only [List.map_cons, List.mem_cons]
        constructor
        · intro _ h
          rcases h with h | h
          · exact ne_of_beq_false hk h.symm
          · exact hrest h
        · intro _; rfl
      | true =>
        have : toString p = k := eq_of_beq hk
        simp [this]

theorem lastOccAttr_pos (ports : List Nat) :
    ∀ (i : Nat) (k : String) (a : PortAttr), 1 ≤ i → lastOccAttr ports i k = Option.some a →
      ∃ q : Nat, toString q = k ∧ a = ⟨"Port " ++ toString q, "notify"⟩ := by
  induction ports with
  | nil => intro i k a _ h; exact absurd h (by simp [lastOccAttr])
  | cons p rest ih =>
    intro i k a hi h
    rw [lastOccAttr] at h
    cases hr : lastOccAttr rest (i + 1) k with
    | some a' =>
      rw [hr] at h
      injection h with h
      exact h ▸ ih (i + 1) k a' (by omega) hr
    | none =>
      rw [hr] at h
      cases hk : (toString p == k) with
      | false => rw [hk] at h; exact absurd h (by simp)
      | true =>
        rw [hk] at h
        simp only [if_true] at h
        injection h with h
        refine ⟨p, eq_of_beq hk, ?_⟩
        have hi0 : (i == 0) = false := by
          cases i
          · omega
          · rfl
        rw [← h, portLabel, hi0]
        simp

theorem toDigitsCore_eq_reprDigits :
    ∀ (fuel n : Nat) (ds : List Char), n < fuel →
      Nat.toDigitsCore 10 fuel n ds = reprDigits n ++ ds := by
  intro fuel
  induction fuel with
  | zero => intro n ds h; omega
  | succ fuel ih =>
    intro n ds h
    rw [Nat.toDigitsCore]
    by_cases hz : n / 10 = 0
    · have hn : n < 10 := by omega
      have hm : n % 10 = n := Nat.mod_eq_of_lt hn
      rw [reprDigits]
      simp [hz, hn, hm]
    · have hn : ¬ n < 10 := by
        intro hlt
        exact hz (Nat.div_eq_of_lt hlt)
      have hlt : n / 10 < fuel := by
        have : n / 10 < n := Nat.div_lt_self (by omega) (by omega)
        omega
      simp only [hz, if_false]
      rw [ih (n / 10) _ hlt]
      conv_rhs => rw [reprDigits]
      simp [hn, List.append_assoc]

theorem digitVal_digitChar : ∀ d : Nat, d < 10 → digitVal (Nat.digitChar d) = d := by
  decide

theorem digitsVal_append_one (l : List Char) (c : Char) :
    digitsVal (l ++ [c]) = digitsVal l * 10 + digitVal c := by
  simp [digitsVal, List.foldl_append]

theorem digitsVal_reprDigits (n : Nat) : digitsVal (reprDigits n) = n := by
  induction n using Nat.strong_induction_on with
  | _ n ih =>
    by_cases h : n < 10
    · rw [reprDigits]
      simp only [h, dif_pos]
      simp [digitsVal, digitVal_digitChar n h]
    · rw [reprDigits]
      simp only [h, dif_neg, not_false_iff]
      rw [digitsVal_append_one,
        ih (n / 10) (Nat.div_lt_self (by omega) (by omega)),
        digitVal_digitChar (n % 10) (Nat.mod_lt n (by omega))]
      omega

theorem natRepr_inj {m n : Nat} (h : Nat.repr m = Nat.repr n) : m = n := by
  have hd : (Nat.repr m).data = (Nat.repr n).data := by rw [h]
  have hm : (Nat.repr m).data = reprDigits m := by
    show (Nat.toDigits 10 m).asString.data = reprDigits m
    rw [Nat.toDigits, toDigitsCore_eq_reprDigits (m + 1) m [] (by omega)]
    simp [List.asString]
  have hn : (Nat.repr n).data = reprDigits n := by
    show (Nat.toDigits 10 n).asString.data = reprDigits n
    rw [Nat.toDigits, toDigitsCore_eq_reprDigits (n + 1) n [] (by omega)]
    simp [List.asString]
  rw [hm, hn] at hd
  rw [← digitsVal_reprDigits m, ← digitsVal_reprDigits n, hd]

theorem natToString_inj {m n : Nat} (h : toString m = toString n) : m = n :=
  natRepr_inj h

theorem gdj_portsAttributes (c : DevcontainerConfig) :
    (generateDevcontainerJson c).portsAttributes = portsAttributesGo c.ports 0 [] := by
  rcases c with ⟨r, v, tz, ports, fw, m, ex⟩
  cases fw <;> cases m <;> cases r <;> rfl

theorem gdj_forwardPorts (c : DevcontainerConfig) :
    (generateDevcontainerJson c).forwardPorts = c.ports := by
  rcases c with ⟨r, v, tz, ports, fw, m, ex⟩
  cases fw <;> cases m <;> cases r <;> rfl

theorem gdj_remoteUser (c : DevcontainerConfig) :
    (generateDevcontainerJson c).remoteUser = devcontainerUser c := by
  rcases c with ⟨r, v, tz, ports, fw, m, ex⟩
  cases fw <;> cases m <;> cases r <;> rfl

theorem gdj_mounts (c : DevcontainerConfig) :
    (generateDevcontainerJson c).mounts =
      if ClaudeMode.toStr c.claudeMode == "local" then
        [ "source=devcontainer-bashhistory-$\x7bdevcontainerId\x7d,target=/commandhistory,type=volume"
        , "source=$\x7blocalEnv:HOME\x7d/.claude,target=/home/" ++ devcontainerUser c ++ "/.claude,type=bind"
        , "source=$\x7blocalEnv:HOME\x7d/.claude.json,target=/home/" ++ devcontainerUser c ++ "/.claude.json,type=bind" ]
      else
        ["source=devcontainer-bashhistory-$\x7bdevcontainerId\x7d,target=/commandhistory,type=volume"] := by
  rcases c with ⟨r, v, tz, ports, fw, m, ex⟩
  cases fw <;> cases m <;> cases r <;> rfl

theorem gdj_containerEnv (c : DevcontainerConfig) :
    (generateDevcontainerJson c).containerEnv =
      (if runtimeStartsWithNode c.runtime then
        recordSet
          (if ClaudeMode.toStr c.claudeMode == "local" then
            [("CLAUDE_CONFIG_DIR", "/home/" ++ devcontainerUser c ++ "/.claude")]
          else [])
          "NODE_OPTIONS" "--max-old-space-size=4096"
      else
        (if ClaudeMode.toStr c.claudeMode == "local" then
          [("CLAUDE_CONFIG_DIR", "/home/" ++ devcontainerUser c ++ "/.claude")]
        else [])) := by
  rcases c with ⟨r, v, tz, ports, fw, m, ex⟩
  cases fw <;> cases m <;> cases r <;> rfl

theorem pfx_app {α : Type} (l t : List α) : l <+: l ++ t := ⟨t, rfl⟩

/-- C3: for every configuration, the domain policy resolver returns a list with
no duplicates that begins with, and in particular contains, the two
unconditional domains `api.github.com` and `github.com`; order is insertion
order, so the two unconditional domains form the prefix of the output. -/
theorem c3_resolver_nodup_and_unconditional (c : DevcontainerConfig) :
    (getFirewallDomains c).Nodup ∧
    ["api.github.com", "github.com"] <+: getFirewallDomains c ∧
    "api.github.com" ∈ getFirewallDomains c ∧
    "github.com" ∈ getFirewallDomains c := by
  rw [getFirewallDomains]
  split_ifs <;>
    exact ⟨by simp,
      by first
        | (simp only [List.append_assoc]; exact pfx_app _ _)
        | exact pfx_app _ _,
      by simp, by simp⟩

theorem rswn_pnpm : runtimeStartsWithNode Runtime.nodePnpm = true := rfl

theorem rswn_bun : runtimeStartsWithNode Runtime.nodeBun = true := rfl

theorem rswn_python : runtimeStartsWithNode Runtime.python = false := rfl

theorem ripy_pnpm : runtimeIsPython Runtime.nodePnpm = false := rfl

theorem ripy_bun : runtimeIsPython Runtime.nodeBun = false := rfl

theorem ripy_python : runtimeIsPython Runtime.python = true := rfl

theorem cmne_none : (ClaudeMode.toStr ClaudeMode.none != "none") = false := rfl

theorem cmne_local : (ClaudeMode.toStr ClaudeMode.local != "none") = true := rfl

theorem cmne_fresh : (ClaudeMode.toStr ClaudeMode.fresh != "none") = true := rfl

/-- C4: registry and PyPI domains are mutually exclusive in the resolver
output: a node-family runtime yields `registry.npmjs.org` and no PyPI domain,
while the python runtime yields both PyPI domains and no npm registry. -/
theorem c4_registry_pypi_mutually_exclusive (c : DevcontainerConfig) :
    ((c.runtime = Runtime.nodePnpm ∨ c.runtime = Runtime.nodeBun) →
      "registry.npmjs.org" ∈ getFirewallDomains c ∧
      "pypi.org" ∉ getFirewallDomains c ∧
      "files.pythonhosted.org" ∉ getFirewallDomains c) ∧
    (c.runtime = Runtime.python →
      "pypi.org" ∈ getFirewallDomains c ∧
      "files.pythonhosted.org" ∈ getFirewallDomains c ∧
      "registry.npmjs.org" ∉ getFirewallDomains c) := by
  rcases c with ⟨r, v, tz, ports, fw, m, ex⟩
  cases r <;> cases m <;>
    simp [getFirewallDomains, rswn_pnpm, rswn_bun, rswn_python, ripy_pnpm, ripy_bun,
      ripy_python, cmne_none, cmne_local, cmne_fresh]

/-- C4 witness: both implications instantiated at concrete configurations. -/
theorem c4_witness :
    ("registry.npmjs.org" ∈ getFirewallDomains cfgNodeExample ∧
      "pypi.org" ∉ getFirewallDomains cfgNodeExample ∧
      "files.pythonhosted.org" ∉ getFirewallDomains cfgNodeExample) ∧
    ("pypi.org" ∈ getFirewallDomains cfgPythonFirewall ∧
      "files.pythonhosted.org" ∈ getFirewallDomains cfgPythonFirewall ∧
      "registry.npmjs.org" ∉ getFirewallDomains cfgPythonFirewall) :=
  ⟨(c4_registry_pypi_mutually_exclusive cfgNodeExample).1 (Or.inl rfl),
   (c4_registry_pypi_mutually_exclusive cfgPythonFirewall).2 rfl⟩

/-- C5: with assistant mode `none`, none of the four assistant-vendor domains
appear in the resolver output; with `local` or `fresh` all four appear, and
the entire output for `local` equals the output for `fresh` at equal
runtime. -/
theorem c5_assistant_domains (c c' : DevcontainerConfig) :
    (c.claudeMode = ClaudeMode.none →
      ∀ d ∈ ["api.anthropic.com", "sentry.io", "statsig.anthropic.com", "statsig.com"],
        d ∉ getFirewallDomains c) ∧
    ((c.claudeMode = ClaudeMode.local ∨ c.claudeMode = ClaudeMode.fresh) →
      ∀ d ∈ ["api.anthropic.com", "sentry.io", "statsig.anthropic.com", "statsig.com"],
        d ∈ getFirewallDomains c) ∧
    (c.claudeMode = ClaudeMode.local → c'.claudeMode = ClaudeMode.fresh →
      c.runtime = c'.runtime → getFirewallDomains c = getFirewallDomains c') := by
  rcases c with ⟨r, v, tz, ports, fw, m, ex⟩
  rcases c' with ⟨r', v', tz', ports', fw', m', ex'⟩
  cases r <;> cases m <;> cases r' <;> cases m' <;>
    simp [getFirewallDomains, rswn_pnpm, rswn_bun, rswn_python, ripy_pnpm, ripy_bun,
      ripy_python, cmne_none, cmne_local, cmne_fresh]

/-- C5 witness: the three statements instantiated at concrete configurations,
including equality of the `local` and `fresh` outputs at runtime node-pnpm. -/
theorem c5_witness :
    (∀ d ∈ ["api.anthropic.com", "sentry.io", "statsig.anthropic.com", "statsig.com"],
      d ∉ getFirewallDomains cfgPythonFirewall) ∧
    (∀ d ∈ ["api.anthropic.com", "sentry.io", "statsig.anthropic.com", "statsig.com"],
      d ∈ getFirewallDomains cfgNodeExample) ∧
    getFirewallDomains cfgNodeExample = getFirewallDomains cfgNodeFresh :=
  ⟨(c5_assistant_domains cfgPythonFirewall cfgNodeFresh).1 rfl,
   (c5_assistant_domains cfgNodeExample cfgNodeFresh).2.1 (Or.inl rfl),
   (c5_assistant_domains cfgNodeExample cfgNodeFresh).2.2 rfl rfl rfl⟩

/-- C1 counterexample: the configuration with non-empty ports list
`[3000, 3000]` has a `portsAttributes` entry for its first port labeled
`"Port 3000"`, not the distinguished `"Application"` label, because the later
occurrence overwrites the first entry. -/
theorem c1_counterexample :
    cfgDupFirstPort.ports ≠ [] ∧
    recordGet (generateDevcontainerJson cfgDupFirstPort).portsAttributes (toString 3000) =
      Option.some ⟨"Port 3000", "notify"⟩ ∧
    recordGet (generateDevcontainerJson cfgDupFirstPort).portsAttributes (toString 3000) ≠
      Option.some ⟨"Application", "notify"⟩ := by
  refine ⟨by simp [cfgDupFirstPort], ?_, ?_⟩ <;>
    rw [gdj_portsAttributes] <;> decide

/-- C1 (amended): for every configuration whose ports list is non-empty and
whose first port does not occur again later in the list, `portsAttributes`
labels the first port with the distinguished `"Application"` label and labels
every other port `"Port <n>"`, embedding that port's own number. -/
theorem c1_ports_attributes_labels (c : DevcontainerConfig) (p : Nat) (rest : List Nat)
    (hports : c.ports = p :: rest) (hnodup : p ∉ rest) :
    recordGet (generateDevcontainerJson c).portsAttributes (toString p) =
      Option.some ⟨"Application", "notify"⟩ ∧
    ∀ q ∈ rest, recordGet (generateDevcontainerJson c).portsAttributes (toString q) =
      Option.some ⟨"Port " ++ toString q, "notify"⟩ := by
  rw [gdj_portsAttributes, hports]
  constructor
  · have hkey : toString p ∉ rest.map toString := by
      intro hm
      rcases List.mem_map.mp hm with ⟨q, hq, he⟩
      exact hnodup (natToString_inj he ▸ hq)
    have hl : lastOccAttr (p :: rest) 0 (toString p) =
        Option.some ⟨"Application", "notify"⟩ := by
      rw [lastOccAttr, (lastOccAttr_none_iff rest (0 + 1) (toString p)).mpr hkey]
      simp [portLabel]
    rw [paGo_get, hl]
    rfl
  · intro q hq
    rw [paGo_get]
    have hmem : toString q ∈ rest.map toString := List.mem_map_of_mem _ hq
    cases hr : lastOccAttr rest (0 + 1) (toString q) with
    | none => exact absurd ((lastOccAttr_none_iff rest (0 + 1) _).mp hr) (by simpa using hmem)
    | some a =>
      obtain ⟨q', hq', ha⟩ := lastOccAttr_pos rest (0 + 1) (toString q) a (by omega) hr
      have hl : lastOccAttr (p :: rest) 0 (toString q) = Option.some a := by
        rw [lastOccAttr, hr]
      rw [hl, ha, hq']
      rfl

/-- C1 witness: at the example configuration with ports `[3000, 5432]`, port
3000 is labeled `Application` and port 5432 is labeled `Port 5432`. -/
theorem c1_witness :
    recordGet (generateDevcontainerJson cfgNodeExample).portsAttributes (toString 3000) =
      Option.some ⟨"Application", "notify"⟩ ∧
    recordGet (generateDevcontainerJson cfgNodeExample).portsAttributes (toString 5432) =
      Option.some ⟨"Port " ++ toString 5432, "notify"⟩ := by
  have h := c1_ports_attributes_labels cfgNodeExample 3000 [5432] rfl (by decide)
  exact ⟨h.1, h.2 5432 (by decide)⟩

/-- C10: when a port recurs in the configured ports list, `forwardPorts` still
equals `ports` with every occurrence in order, while `portsAttributes` holds
exactly one entry per distinct port key (keys are distinct, every port is
covered, and no key comes from outside the ports list); the attribute stored
under a key is the one written by the last occurrence of that port
(`lastOccAttr`), so in particular a first port that recurs later is labeled
`"Port <n>"` rather than `"Application"`. -/
theorem c10_duplicate_ports_attributes (c : DevcontainerConfig) (p : Nat) (rest : List Nat)
    (hports : c.ports = p :: rest) (_hdup : ¬ c.ports.Nodup) :
    (generateDevcontainerJson c).forwardPorts = c.ports ∧
    ((generateDevcontainerJson c).portsAttributes.map Prod.fst).Nodup ∧
    (∀ q ∈ c.ports, toString q ∈ (generateDevcontainerJson c).portsAttributes.map Prod.fst) ∧
    (∀ k ∈ (generateDevcontainerJson c).portsAttributes.map Prod.fst, k ∈ c.ports.map toString) ∧
    (∀ q ∈ c.ports, recordGet (generateDevcontainerJson c).portsAttributes (toString q) =
      lastOccAttr c.ports 0 (toString q)) ∧
    (p ∈ rest → recordGet (generateDevcontainerJson c).portsAttributes (toString p) =
      Option.some ⟨"Port " ++ toString p, "notify"⟩) := by
  refine ⟨gdj_forwardPorts c, ?_, ?_, ?_, ?_, ?_⟩
  · rw [gdj_portsAttributes]
    exact paGo_keys_nodup c.ports 0 [] (by simp)
  · intro q hq
    rw [gdj_portsAttributes, paGo_keys_mem]
    exact Or.inl (List.mem_map_of_mem _ hq)
  · intro k hk
    rw [gdj_portsAttributes, paGo_keys_mem] at hk
    simpa using hk
  · intro q _
    rw [gdj_portsAttributes, paGo_get]
    cases lastOccAttr c.ports 0 (toString q) with
    | none => rfl
    | some a => rfl
  · intro hp
    rw [gdj_portsAttributes, hports, paGo_get]
    have hmem : toString p ∈ rest.map toString := List.mem_map_of_mem _ hp
    cases hr : lastOccAttr rest (0 + 1) (toString p) with
    | none => exact absurd ((lastOccAttr_none_iff rest (0 + 1) _).mp hr) (by simpa using hmem)
    | some a =>
      obtain ⟨q', hq', ha⟩ := lastOccAttr_pos rest (0 + 1) (toString p) a (by omega) hr
      have hl : lastOccAttr (p :: rest) 0 (toString p) = Option.some a := by
        rw [lastOccAttr, hr]
      rw [hl, ha, hq']
      rfl

/-- C10 witness: with ports `[3000, 4000, 3000]` the forwarded ports keep all
three occurrences while the recurring first port 3000 is labeled
`Port 3000`. -/
theorem c10_witness :
    (generateDevcontainerJson cfgDupPorts).forwardPorts = [3000, 4000, 3000] ∧
    recordGet (generateDevcontainerJson cfgDupPorts).portsAttributes (toString 3000) =
      Option.some ⟨"Port " ++ toString 3000, "notify"⟩ := by
  have h := c10_duplicate_ports_attributes cfgDupPorts 3000 [4000, 3000] rfl (by simp [cfgDupPorts])
  exact ⟨h.1, h.2.2.2.2.2 (by decide)⟩

theorem dockerfile_contains_claude (c : DevcontainerConfig)
    (h : ClaudeMode.toStr c.claudeMode != "none") :
    ContainsStr (generateDockerfile c) "npm install -g @anthropic-ai/claude-code" := by
  rcases c with ⟨r, v, tz, ports, fw, m, ex⟩
  cases m
  · exact absurd (cmne_none ▸ h) (by simp)
  all_goals
    cases r <;>
      simp only [generateDockerfile, rswn_pnpm, rswn_bun, rswn_python, ripy_pnpm, ripy_bun,
        ripy_python, if_true, if_false, Bool.false_eq_true] <;>
    · apply containsStr_append_left
      apply containsStr_append_left
      apply containsStr_append_right
      first
        | (rw [dfClaudeCliNode]; simp only [cmne_local, cmne_fresh, if_true];
            apply containsStr_append_left; exact containsStr_of_b (by rfl))
        | (rw [dfClaudeCliPython]; simp only [cmne_local, cmne_fresh, if_true];
            apply containsStr_append_left; exact containsStr_of_b (by rfl))

theorem dcu_pnpm (v tz : String) (ports : List Nat) (fw : Bool) (m : ClaudeMode)
    (ex : List String) :
    devcontainerUser ⟨Runtime.nodePnpm, v, tz, ports, fw, m, ex⟩ = "node" := rfl

theorem dcu_bun (v tz : String) (ports : List Nat) (fw : Bool) (m : ClaudeMode)
    (ex : List String) :
    devcontainerUser ⟨Runtime.nodeBun, v, tz, ports, fw, m, ex⟩ = "node" := rfl

theorem dcu_python (v tz : String) (ports : List Nat) (fw : Bool) (m : ClaudeMode)
    (ex : List String) :
    devcontainerUser ⟨Runtime.python, v, tz, ports, fw, m, ex⟩ = "vscode" := rfl

theorem cml_none : (ClaudeMode.toStr ClaudeMode.none == "local") = false := rfl

theorem cml_local : (ClaudeMode.toStr ClaudeMode.local == "local") = true := rfl

theorem cml_fresh : (ClaudeMode.toStr ClaudeMode.fresh == "local") = false := rfl

/-- C6: with assistant mode `local`, the manifest's mounts include the
credentials-directory and credentials-file bind mounts and the container
environment points `CLAUDE_CONFIG_DIR` at the mounted directory; with `fresh`,
none of the three appear; in both modes the build recipe still installs the
assistant CLI. -/
theorem c6_assistant_credentials (c : DevcontainerConfig) :
    (c.claudeMode = ClaudeMode.local →
      ("source=$\x7blocalEnv:HOME\x7d/.claude,target=/home/" ++ devcontainerUser c ++ "/.claude,type=bind")
        ∈ (generateDevcontainerJson c).mounts ∧
      ("source=$\x7blocalEnv:HOME\x7d/.claude.json,target=/home/" ++ devcontainerUser c ++ "/.claude.json,type=bind")
        ∈ (generateDevcontainerJson c).mounts ∧
      recordGet (generateDevcontainerJson c).containerEnv "CLAUDE_CONFIG_DIR" =
        Option.some ("/home/" ++ devcontainerUser c ++ "/.claude")) ∧
    (c.claudeMode = ClaudeMode.fresh →
      ("source=$\x7blocalEnv:HOME\x7d/.claude,target=/home/" ++ devcontainerUser c ++ "/.claude,type=bind")
        ∉ (generateDevcontainerJson c).mounts ∧
      ("source=$\x7blocalEnv:HOME\x7d/.claude.json,target=/home/" ++ devcontainerUser c ++ "/.claude.json,type=bind")
        ∉ (generateDevcontainerJson c).mounts ∧
      recordGet (generateDevcontainerJson c).containerEnv "CLAUDE_CONFIG_DIR" = Option.none) ∧
    ((c.claudeMode = ClaudeMode.local ∨ c.claudeMode = ClaudeMode.fresh) →
      ContainsStr (generateDockerfile c) "npm install -g @anthropic-ai/claude-code") := by
  rcases c with ⟨r, v, tz, ports, fw, m, ex⟩
  refine ⟨fun h => ?_, fun h => ?_, fun h => ?_⟩
  · cases m
    · exact absurd h (by simp)
    · rw [gdj_mounts, gdj_containerEnv]
      cases r <;>
        simp only [cml_local, if_true, rswn_pnpm, rswn_bun, rswn_python,
          Bool.false_eq_true, if_false, dcu_pnpm, dcu_bun, dcu_python] <;>
        exact ⟨by decide, by decide, by decide⟩
    · exact absurd h (by simp)
  · cases m
    · exact absurd h (by simp)
    · exact absurd h (by simp)
    · rw [gdj_mounts, gdj_containerEnv]
      cases r <;>
        simp only [cml_fresh, Bool.false_eq_true, if_false, rswn_pnpm, rswn_bun,
          rswn_python, if_true, dcu_pnpm, dcu_bun, dcu_python] <;>
        exact ⟨by decide, by decide, by decide⟩
  · apply dockerfile_contains_claude
    cases m
    · rcases h with h | h <;> exact absurd h (by simp)
    · exact cmne_local
    · exact cmne_fresh

/-- C6 witness: concrete instances for `local` (mounts and environment
present), `fresh` (absent), and CLI installation in both. -/
theorem c6_witness :
    ("source=$\x7blocalEnv:HOME\x7d/.claude,target=/home/node/.claude,type=bind"
        ∈ (generateDevcontainerJson cfgNodeExample).mounts ∧
      "source=$\x7blocalEnv:HOME\x7d/.claude.json,target=/home/node/.claude.json,type=bind"
        ∈ (generateDevcontainerJson cfgNodeExample).mounts ∧
      recordGet (generateDevcontainerJson cfgNodeExample).containerEnv "CLAUDE_CONFIG_DIR" =
        Option.some "/home/node/.claude") ∧
    ("source=$\x7blocalEnv:HOME\x7d/.claude,target=/home/node/.claude,type=bind"
        ∉ (generateDevcontainerJson cfgNodeFresh).mounts ∧
      recordGet (generateDevcontainerJson cfgNodeFresh).containerEnv "CLAUDE_CONFIG_DIR" =
        Option.none) ∧
    ContainsStr (generateDockerfile cfgNodeFresh) "npm install -g @anthropic-ai/claude-code" := by
  have h1 := (c6_assistant_credentials cfgNodeExample).1 rfl
  have h2 := (c6_assistant_credentials cfgNodeFresh).2.1 rfl
  have h3 := (c6_assistant_credentials cfgNodeFresh).2.2 (Or.inr rfl)
  exact ⟨h1, ⟨h2.1, h2.2.2⟩, h3⟩

theorem dfu_pnpm (v tz : String) (ports : List Nat) (fw : Bool) (m : ClaudeMode)
    (ex : List String) :
    dockerfileUser ⟨Runtime.nodePnpm, v, tz, ports, fw, m, ex⟩ = "node" := rfl

theorem dfu_bun (v tz : String) (ports : List Nat) (fw : Bool) (m : ClaudeMode)
    (ex : List String) :
    dockerfileUser ⟨Runtime.nodeBun, v, tz, ports, fw, m, ex⟩ = "node" := rfl

theorem dfu_python (v tz : String) (ports : List Nat) (fw : Bool) (m : ClaudeMode)
    (ex : List String) :
    dockerfileUser ⟨Runtime.python, v, tz, ports, fw, m, ex⟩ = "vscode" := rfl

theorem dockerfile_contains_user_lines (c : DevcontainerConfig) :
    ContainsStr (generateDockerfile c) ("\nUSER " ++ dockerfileUser c ++ "\n") ∧
    ContainsStr (generateDockerfile c) ("ARG USERNAME=" ++ dockerfileUser c) := by
  rcases c with ⟨r, v, tz, ports, fw, m, ex⟩
  cases r <;>
    simp only [generateDockerfile, rswn_pnpm, rswn_bun, rswn_python, ripy_pnpm, ripy_bun,
      ripy_python, if_true, if_false, Bool.false_eq_true, dfu_pnpm, dfu_bun, dfu_python] <;>
    constructor <;>
    first
      | (apply containsStr_append_left
         apply containsStr_append_left
         apply containsStr_append_left
         apply containsStr_append_left
         apply containsStr_append_left
         apply containsStr_append_left
         apply containsStr_append_left
         apply containsStr_append_right
         exact containsStr_of_b (by rfl))
      | (apply containsStr_append_left
         apply containsStr_append_left
         apply containsStr_append_left
         apply containsStr_append_left
         apply containsStr_append_left
         apply containsStr_append_right
         exact containsStr_of_b (by rfl))

theorem dockerfile_contains_sudoers (c : DevcontainerConfig) (h : c.enableFirewall = true) :
    ContainsStr (generateDockerfile c)
      ("echo \"" ++ dockerfileUser c ++
        " ALL=(root) NOPASSWD: /usr/local/bin/init-firewall.sh\" > /etc/sudoers.d/" ++
        dockerfileUser c ++ "-firewall") := by
  rcases c with ⟨r, v, tz, ports, fw, m, ex⟩
  cases fw
  · exact absurd h (by simp)
  · cases r <;>
      simp only [generateDockerfile, rswn_pnpm, rswn_bun, rswn_python, ripy_pnpm, ripy_bun,
        ripy_python, if_true, if_false, Bool.false_eq_true, dfu_pnpm, dfu_bun, dfu_python] <;>
    · apply containsStr_append_right
      rw [dfFirewallSetup]
      simp only [if_true, dfu_pnpm, dfu_bun, dfu_python]
      exact containsStr_of_b (by rfl)

/-- C7: the privileged-user mapping (python to "vscode", both node variants to
"node") is computed identically by the recipe compiler and the manifest
compiler: the two user functions agree, the manifest's `remoteUser` equals the
recipe's user, the recipe's `USER`, `ARG USERNAME=` and firewall sudoers lines
name that same user, and the manifest's credential-mount target paths and
`CLAUDE_CONFIG_DIR` embed it. -/
theorem c7_user_mapping_consistent (c : DevcontainerConfig) :
    dockerfileUser c = devcontainerUser c ∧
    (generateDevcontainerJson c).remoteUser = dockerfileUser c ∧
    ContainsStr (generateDockerfile c) ("\nUSER " ++ dockerfileUser c ++ "\n") ∧
    ContainsStr (generateDockerfile c) ("ARG USERNAME=" ++ dockerfileUser c) ∧
    (c.enableFirewall = true →
      ContainsStr (generateDockerfile c)
        ("echo \"" ++ dockerfileUser c ++
          " ALL=(root) NOPASSWD: /usr/local/bin/init-firewall.sh\" > /etc/sudoers.d/" ++
          dockerfileUser c ++ "-firewall")) ∧
    (c.claudeMode = ClaudeMode.local →
      ("source=$\x7blocalEnv:HOME\x7d/.claude,target=/home/" ++
          (generateDevcontainerJson c).remoteUser ++ "/.claude,type=bind")
        ∈ (generateDevcontainerJson c).mounts ∧
      ("source=$\x7blocalEnv:HOME\x7d/.claude.json,target=/home/" ++
          (generateDevcontainerJson c).remoteUser ++ "/.claude.json,type=bind")
        ∈ (generateDevcontainerJson c).mounts ∧
      recordGet (generateDevcontainerJson c).containerEnv "CLAUDE_CONFIG_DIR" =
        Option.some ("/home/" ++ (generateDevcontainerJson c).remoteUser ++ "/.claude")) := by
  refine ⟨rfl, gdj_remoteUser c, (dockerfile_contains_user_lines c).1,
    (dockerfile_contains_user_lines c).2, dockerfile_contains_sudoers c, fun h => ?_⟩
  rw [gdj_remoteUser, gdj_mounts, gdj_containerEnv]
  rcases c with ⟨r, v, tz, ports, fw, m, ex⟩
  cases m
  · exact absurd h (by simp)
  · cases r <;>
      simp only [cml_local, if_true, rswn_pnpm, rswn_bun, rswn_python,
        Bool.false_eq_true, if_false, dcu_pnpm, dcu_bun, dcu_python] <;>
      exact ⟨by decide, by decide, by decide⟩
  · exact absurd h (by simp)

/-- C7 witness: at the node example configuration (firewall on, local mode),
the user is "node" everywhere: recipe USER/sudoers lines and manifest
remoteUser, mounts and environment. -/
theorem c7_witness :
    (generateDevcontainerJson cfgNodeExample).remoteUser = dockerfileUser cfgNodeExample ∧
    ContainsStr (generateDockerfile cfgNodeExample)
      ("echo \"" ++ dockerfileUser cfgNodeExample ++
        " ALL=(root) NOPASSWD: /usr/local/bin/init-firewall.sh\" > /etc/sudoers.d/" ++
        dockerfileUser cfgNodeExample ++ "-firewall") ∧
    ("source=$\x7blocalEnv:HOME\x7d/.claude,target=/home/" ++
        (generateDevcontainerJson cfgNodeExample).remoteUser ++ "/.claude,type=bind")
      ∈ (generateDevcontainerJson cfgNodeExample).mounts := by
  have h := c7_user_mapping_consistent cfgNodeExample
  exact ⟨h.2.1, h.2.2.2.2.1 rfl, (h.2.2.2.2.2 rfl).1⟩

theorem line_infix_script (c : DevcontainerConfig) (x : String)
    (h : x ∈ generateFirewallScriptLines c) :
    x.data <:+: (generateFirewallScript c).data :=
  mem_intercalate_contains "\n" _ x h

/-- C8: for every configuration, the compiled firewall script begins with the
interpreter directive and `set -euo pipefail` strict mode, contains each
resolved domain quoted verbatim, and contains the literal default-deny policy
lines for INPUT and OUTPUT and the DNS, SSH and loopback allow lines. -/
theorem c8_script_verbatim_content (c : DevcontainerConfig) :
    ("#!/bin/bash\nset -euo pipefail\n").data <+: (generateFirewallScript c).data ∧
    (∀ d ∈ getFirewallDomains c,
      ContainsStr (generateFirewallScript c) ("\"" ++ d ++ "\"")) ∧
    ContainsStr (generateFirewallScript c) "iptables -P INPUT DROP" ∧
    ContainsStr (generateFirewallScript c) "iptables -P OUTPUT DROP" ∧
    ContainsStr (generateFirewallScript c) "iptables -A OUTPUT -p udp --dport 53 -j ACCEPT" ∧
    ContainsStr (generateFirewallScript c) "iptables -A INPUT -p udp --sport 53 -j ACCEPT" ∧
    ContainsStr (generateFirewallScript c) "iptables -A OUTPUT -p tcp --dport 22 -j ACCEPT" ∧
    ContainsStr (generateFirewallScript c)
      "iptables -A INPUT -p tcp --sport 22 -m state --state ESTABLISHED -j ACCEPT" ∧
    ContainsStr (generateFirewallScript c) "iptables -A INPUT -i lo -j ACCEPT" ∧
    ContainsStr (generateFirewallScript c) "iptables -A OUTPUT -o lo -j ACCEPT" := by
  refine ⟨?_, ?_, ?_, ?_, ?_, ?_, ?_, ?_, ?_, ?_⟩
  · have hl : generateFirewallScriptLines c =
        "#!/bin/bash" :: "set -euo pipefail" ::
          (fwLinesPre.drop 2 ++ ["for domain in " ++ domainList c ++ "; do"] ++ fwLinesPost) :=
      rfl
    have e : generateFirewallScript c =
        ("#!/bin/bash" ++ "\n") ++ (("set -euo pipefail" ++ "\n") ++
          String.intercalate "\n"
            (fwLinesPre.drop 2 ++ ["for domain in " ++ domainList c ++ "; do"] ++ fwLinesPost)) := by
      rw [generateFirewallScript, hl, intercalate_cons2]
      rw [show (fwLinesPre.drop 2 ++ ["for domain in " ++ domainList c ++ "; do"] ++ fwLinesPost)
          = "IFS=$\x27\\n\\t\x27" ::
            (fwLinesPre.drop 3 ++ ["for domain in " ++ domainList c ++ "; do"] ++ fwLinesPost)
        from rfl, intercalate_cons2]
    rw [e]
    refine ⟨(String.intercalate "\n"
      (fwLinesPre.drop 2 ++ ["for domain in " ++ domainList c ++ "; do"] ++ fwLinesPost)).data, ?_⟩
    rw [show ("#!/bin/bash\nset -euo pipefail\n").data
        = "#!/bin/bash".data ++ ("\n".data ++ ("set -euo pipefail".data ++ "\n".data)) from rfl]
    simp only [String.data_append, List.append_assoc]
  · intro d hd
    have h1 : ("\"" ++ d ++ "\"").data <:+: (domainList c).data :=
      mem_intercalate_contains " " _ _ (List.mem_map_of_mem _ hd)
    have h2 : ("for domain in " ++ domainList c ++ "; do") ∈ generateFirewallScriptLines c := by
      rw [generateFirewallScriptLines]
      exact List.mem_append_left _ (List.mem_append_right _ (by simp))
    have h4 : ("\"" ++ d ++ "\"").data <:+: ("for domain in " ++ domainList c ++ "; do").data := by
      rw [String.data_append, String.data_append]
      exact infix_app_left _ (infix_app_right _ h1)
    exact List.IsInfix.trans h4 (line_infix_script c _ h2)
  all_goals
    refine line_infix_script c _ ?_
  all_goals
    rw [generateFirewallScriptLines]
  · exact List.mem_append_right _ (by decide)
  · exact List.mem_append_right _ (by decide)
  all_goals
    exact List.mem_append_left _ (List.mem_append_left _ (by decide))

/-- C8 witness: the quoted unconditional domain appears verbatim in the script
of the example configuration. -/
theorem c8_witness :
    ContainsStr (generateFirewallScript cfgNodeExample) ("\"" ++ "api.github.com" ++ "\"") :=
  (c8_script_verbatim_content cfgNodeExample).2.1 "api.github.com" (by decide)

theorem fwLinesPre_length : fwLinesPre.length = 52 := rfl

theorem fwLinesPost_length : fwLinesPost.length = 31 := rfl

theorem lines_lt (c : DevcontainerConfig) (j : Nat) (h : j < 52) :
    (generateFirewallScriptLines c)[j]? = fwLinesPre[j]? := by
  rw [generateFirewallScriptLines,
    List.getElem?_append_left (by simp [fwLinesPre_length]; omega),
    List.getElem?_append_left (by rw [fwLinesPre_length]; omega)]

theorem lines_52 (c : DevcontainerConfig) :
    (generateFirewallScriptLines c)[52]? =
      Option.some ("for domain in " ++ domainList c ++ "; do") := rfl

theorem lines_ge (c : DevcontainerConfig) (j : Nat) (h : 53 ≤ j) :
    (generateFirewallScriptLines c)[j]? = fwLinesPost[j - 53]? := by
  have hlen : (fwLinesPre ++ ["for domain in " ++ domainList c ++ "; do"]).length = 53 := by
    simp [fwLinesPre_length]
  rw [generateFirewallScriptLines, List.getElem?_append_right (by rw [hlen]; omega), hlen]

/-- C9: in every compiled firewall script, the NAT-snapshot command (line 5)
strictly precedes every flush or reset command, and every default-deny policy
line is preceded by the baseline allow lines, the allow-list creation, the
domain-resolution loop, and the host-subnet allow lines, in line order. -/
theorem c9_script_ordering (c : DevcontainerConfig) :
    ((generateFirewallScriptLines c)[5]? =
        Option.some "DOCKER_DNS_RULES=$(iptables-save -t nat | grep \"127\\.0\\.0\\.11\" || true)" ∧
      ∀ (j : Nat) (f : String), f ∈ ["iptables -F", "iptables -X", "iptables -t nat -F", "iptables -t nat -X",
          "iptables -t mangle -F", "iptables -t mangle -X",
          "ipset destroy allowed-domains 2>/dev/null || true"] →
        (generateFirewallScriptLines c)[j]? = Option.some f → 5 < j) ∧
    (∀ (j : Nat) (d : String), d ∈ ["iptables -P INPUT DROP", "iptables -P FORWARD DROP", "iptables -P OUTPUT DROP"] →
      (generateFirewallScriptLines c)[j]? = Option.some d →
      (∀ a ∈ ["iptables -A OUTPUT -p udp --dport 53 -j ACCEPT",
              "iptables -A INPUT -p udp --sport 53 -j ACCEPT",
              "iptables -A OUTPUT -p tcp --dport 22 -j ACCEPT",
              "iptables -A INPUT -p tcp --sport 22 -m state --state ESTABLISHED -j ACCEPT",
              "iptables -A INPUT -i lo -j ACCEPT",
              "iptables -A OUTPUT -o lo -j ACCEPT",
              "ipset create allowed-domains hash:net",
              "iptables -A INPUT -s \"$HOST_NETWORK\" -j ACCEPT",
              "iptables -A OUTPUT -d \"$HOST_NETWORK\" -j ACCEPT"],
        ∃ i : Nat, i < j ∧ (generateFirewallScriptLines c)[i]? = Option.some a) ∧
      (∃ i : Nat, i < j ∧ (generateFirewallScriptLines c)[i]? =
        Option.some ("for domain in " ++ domainList c ++ "; do"))) := by
  refine ⟨⟨rfl, ?_⟩, ?_⟩
  · intro j f hf hj
    by_cases hjl : j < 52
    · rw [lines_lt c j hjl] at hj
      have key : ∀ j' < 52, ∀ f' ∈ ["iptables -F", "iptables -X", "iptables -t nat -F",
          "iptables -t nat -X", "iptables -t mangle -F", "iptables -t mangle -X",
          "ipset destroy allowed-domains 2>/dev/null || true"],
          fwLinesPre[j']? = Option.some f' → 5 < j' := by decide
      exact key j hjl f hf hj
    · omega
  · intro j d hd hj
    have hjge : 71 ≤ j := by
      by_cases h1 : j < 52
      · exfalso
        rw [lines_lt c j h1] at hj
        have key : ∀ j' < 52, ∀ d' ∈ ["iptables -P INPUT DROP", "iptables -P FORWARD DROP",
            "iptables -P OUTPUT DROP"], fwLinesPre[j']? ≠ Option.some d' := by decide
        exact key j h1 d hd hj
      · by_cases h2 : j = 52
        · exfalso
          subst h2
          have hdl : ("for domain in " ++ domainList c ++ "; do") = d :=
            Option.some.inj ((lines_52 c).symm.trans hj)
          have h3 : List.take 3 ("for domain in " ++ domainList c ++ "; do").data =
              List.take 3 d.data := by rw [hdl]
          rw [show List.take 3 ("for domain in " ++ domainList c ++ "; do").data =
              ['f', 'o', 'r'] from rfl] at h3
          fin_cases hd <;> exact absurd h3 (by decide)
        · have h53 : 53 ≤ j := by omega
          rw [lines_ge c j h53] at hj
          have hlt : j - 53 < 31 := by
            by_contra hge
            rw [List.getElem?_eq_none (by rw [fwLinesPost_length]; omega)] at hj
            exact Option.noConfusion hj
          have key : ∀ m < 31, ∀ d' ∈ ["iptables -P INPUT DROP", "iptables -P FORWARD DROP",
              "iptables -P OUTPUT DROP"], fwLinesPost[m]? = Option.some d' → 18 ≤ m := by decide
          have := key (j - 53) hlt d hd hj
          omega
    refine ⟨?_, ⟨52, by omega, lines_52 c⟩⟩
    intro a ha
    fin_cases ha
    · exact ⟨25, by omega, rfl⟩
    · exact ⟨26, by omega, rfl⟩
    · exact ⟨27, by omega, rfl⟩
    · exact ⟨28, by omega, rfl⟩
    · exact ⟨29, by omega, rfl⟩
    · exact ⟨30, by omega, rfl⟩
    · exact ⟨33, by omega, rfl⟩
    · exact ⟨67, by omega, rfl⟩
    · exact ⟨68, by omega, rfl⟩

/-- C9 witness: at the example configuration, the INPUT default-deny line sits
at index 71, and the theorem yields allow-rule and domain-loop lines strictly
before it. -/
theorem c9_witness :
    (∀ a ∈ ["iptables -A OUTPUT -p udp --dport 53 -j ACCEPT",
            "iptables -A INPUT -p udp --sport 53 -j ACCEPT",
            "iptables -A OUTPUT -p tcp --dport 22 -j ACCEPT",
            "iptables -A INPUT -p tcp --sport 22 -m state --state ESTABLISHED -j ACCEPT",
            "iptables -A INPUT -i lo -j ACCEPT",
            "iptables -A OUTPUT -o lo -j ACCEPT",
            "ipset create allowed-domains hash:net",
            "iptables -A INPUT -s \"$HOST_NETWORK\" -j ACCEPT",
            "iptables -A OUTPUT -d \"$HOST_NETWORK\" -j ACCEPT"],
      ∃ i : Nat, i < 71 ∧ (generateFirewallScriptLines cfgNodeExample)[i]? = Option.some a) ∧
    (∃ i : Nat, i < 71 ∧ (generateFirewallScriptLines cfgNodeExample)[i]? =
      Option.some ("for domain in " ++ domainList cfgNodeExample ++ "; do")) :=
  (c9_script_ordering cfgNodeExample).2 71 "iptables -P INPUT DROP" (by simp) rfl

theorem checkOcc_glue (pat next : List Char) (hpat : pat ≠ [])
    (A v B : List Char)
    (hnA : containsB pat A = false)
    (hnv : containsB pat v = false)
    (hB : checkOcc pat next B = true)
    (hsl : straddLeft A pat = false)
    (hsr : straddRight B pat = false) :
    ∀ x y : List Char, A ++ (v ++ B) = x ++ (pat ++ y) → next <+: y := by
  intro x y h
  have h2 : x ++ pat ++ y = A ++ (v ++ B) := by
    rw [List.append_assoc]
    exact h.symm
  rcases occ_in_append h2 with ⟨s, hs1, _⟩ | ⟨t, _, ht2⟩ |
    ⟨p1, p2, hp, h1, h2, ha, _⟩
  · exfalso
    have hinf : pat <:+: A := ⟨x, s, by rw [hs1]⟩
    rw [(containsB_iff pat A).mpr hinf] at hnA
    exact Bool.true_eq_false.mp hnA
  · rcases occ_in_append ht2 with ⟨s, hs1, _⟩ | ⟨u, _, hu2⟩ |
      ⟨p1, p2, hp, h1, h2, _, hb2⟩
    · exfalso
      have hinf : pat <:+: v := ⟨t, s, by rw [hs1]⟩
      rw [(containsB_iff pat v).mpr hinf] at hnv
      exact Bool.true_eq_false.mp hnv
    · exact checkOcc_sound pat next hpat u B y hB hu2.symm
    · exfalso
      have := straddRight_of B pat p1 p2 hp h1 h2 ⟨y, hb2.symm⟩
      rw [hsr] at this
      exact Bool.false_ne_true this
  · exfalso
    have := straddLeft_of A pat p1 p2 hp h1 h2 ⟨x, ha.symm⟩
    rw [hsl] at this
    exact Bool.false_ne_true this


theorem c2_node_occ (r : Runtime) (hr : r = Runtime.nodePnpm ∨ r = Runtime.nodeBun)
    (v tz : String) (ports : List Nat) (m : ClaudeMode) (ex : List String)
    (hv : containsB "NOPASSWD".data v.data = false) :
    ∀ x y : List Char,
      (generateDockerfile ⟨r, v, tz, ports, true, m, ex⟩).data =
        x ++ ("NOPASSWD".data) ++ y →
      (": /usr/local/bin/init-firewall.sh").data <+: y := by
  rcases hr with rfl | rfl <;> cases m <;>
  · intro x y hxy
    simp only [generateDockerfile, rswn_pnpm, rswn_bun, ripy_pnpm, ripy_bun, if_true,
      if_false, Bool.false_eq_true, String.data_append, List.append_assoc] at hxy
    refine checkOcc_glue _ _ ?_ _ _ _ ?_ hv ?_ ?_ ?_ x y hxy
    · decide
    · rfl
    · rfl
    · rfl
    · rfl

/-- C2 counterexample: in the python recipe with the firewall enabled, the
user-creation line grants `NOPASSWD:ALL`, an occurrence of `NOPASSWD` that is
not followed by the firewall script path — so the sudo configuration permits
commands other than `/usr/local/bin/init-firewall.sh`, contradicting the claim
for the python runtime. -/
theorem c2_counterexample :
    ∃ x y : List Char,
      (generateDockerfile cfgPythonFirewall).data = x ++ ("NOPASSWD".data) ++ y ∧
      ¬ ((": /usr/local/bin/init-firewall.sh").data <+: y) := by
  have h : checkOcc "NOPASSWD".data (": /usr/local/bin/init-firewall.sh").data
      (generateDockerfile cfgPythonFirewall).data = false := rfl
  exact checkOcc_complete _ _ _ h

/-- C2 (amended): with the firewall enabled, for the node runtimes the recipe
grants the privileged user passwordless elevation for exactly the firewall
script: it contains the sudoers line naming only
`/usr/local/bin/init-firewall.sh`, and (provided the free-form version string
does not itself contain `NOPASSWD`) every occurrence of `NOPASSWD` in the
recipe is immediately followed by `: /usr/local/bin/init-firewall.sh`.  The
python branch additionally grants `NOPASSWD:ALL` at user creation (see the
counterexample), so the original claim holds only for the node family. -/
theorem c2_sudo_only_firewall (c : DevcontainerConfig)
    (hfw : c.enableFirewall = true)
    (hnode : c.runtime = Runtime.nodePnpm ∨ c.runtime = Runtime.nodeBun)
    (hv : ¬ ContainsStr c.runtimeVersion "NOPASSWD") :
    ContainsStr (generateDockerfile c)
      "echo \"node ALL=(root) NOPASSWD: /usr/local/bin/init-firewall.sh\" > /etc/sudoers.d/node-firewall" ∧
    ∀ x y : List Char,
      (generateDockerfile c).data = x ++ ("NOPASSWD".data) ++ y →
      (": /usr/local/bin/init-firewall.sh").data <+: y := by
  constructor
  · have hu : dockerfileUser c = "node" := by
      rcases hnode with h | h <;> rw [dockerfileUser, h] <;> rfl
    have hs := dockerfile_contains_sudoers c hfw
    rw [hu] at hs
    exact hs
  · have hb : containsB "NOPASSWD".data c.runtimeVersion.data = false := by
      cases hcb : containsB "NOPASSWD".data c.runtimeVersion.data
      · rfl
      · exact absurd ((containsB_iff _ _).mp hcb) hv
    rcases c with ⟨r, v, tz, ports, fw, m, ex⟩
    cases fw
    · exact absurd hfw (by simp)
    · exact c2_node_occ r hnode v tz ports m ex hb

/-- C2 witness: the hypotheses hold at the node example configuration
(firewall on, version "20"), which contains the firewall-only sudoers line. -/
theorem c2_witness :
    (¬ ContainsStr "20" "NOPASSWD") ∧
    ContainsStr (generateDockerfile cfgNodeExample)
      "echo \"node ALL=(root) NOPASSWD: /usr/local/bin/init-firewall.sh\" > /etc/sudoers.d/node-firewall" :=
  ⟨by simp only [ContainsStr]; decide,
   (c2_sudo_only_firewall cfgNodeExample rfl (Or.inl rfl)
     (by simp only [ContainsStr]; decide)).1⟩
